import Mathlib

/-!
Shallow embedding of `vextanim.py`, a Blender add-on that bakes per-frame
vertex offsets and normals of the selected mesh objects into two textures.

Python floats are modelled as exact rationals (`ℚ`).  A Blender mesh, as far
as `get_vertex_data` consumes it, is a named ordered list of vertices, each
carrying a world-space position (`co`) and a normal.  Fallible operations
(Python indexing that can raise `IndexError`) return `Option`.
-/

namespace VextAnim

/-- A 3-component vector (`mathutils.Vector` of length 3), with exact
rational components. -/
structure Vec3 where
  x : ℚ
  y : ℚ
  z : ℚ
  deriving Repr, DecidableEq, Inhabited

/-- Componentwise subtraction, `v.co - original[v.index].co`. -/
def Vec3.sub (a b : Vec3) : Vec3 := ⟨a.x - b.x, a.y - b.y, a.z - b.z⟩

/-- One vertex of an evaluated mesh snapshot: position and normal. -/
structure Vertex where
  co : Vec3
  normal : Vec3
  deriving Repr, DecidableEq, Inhabited

/-- A combined per-frame mesh snapshot as produced by
`get_per_frame_mesh_data`: `data.meshes.new("mesh")` filled from the bmesh.
Only the name and the ordered vertex list are relevant to the extractor;
`bm.verts` enumerates vertices in index order, with `v.index` equal to the
position in the list. -/
structure Mesh where
  name : String
  vertices : List Vertex
  deriving Repr, DecidableEq, Inhabited

/-- The four channels `offsets.extend((x, -y, z, 1))` appends for one vertex,
where `(x, y, z)` is `offset = v.co - original[v.index].co`. -/
def offsetChannels (offset : Vec3) : List ℚ :=
  [offset.x, -offset.y, offset.z, 1]

/-- The four channels `normals.extend(((x+1)*0.5, (-y+1)*0.5, (z+1)*0.5, 1))`
appends for one vertex, where `(x, y, z)` is `v.normal`. -/
def normalChannels (n : Vec3) : List ℚ :=
  [(n.x + 1) * (1/2), (-n.y + 1) * (1/2), (n.z + 1) * (1/2), 1]

/-- The body of the inner loop `for v in bm.verts` of `get_vertex_data`,
iterating the current mesh's vertices with running index `i` (`v.index`).
`original.get? i` models the Python indexing `original[v.index]`, which
raises `IndexError` (here: `none`) when the index is out of range. -/
def meshVertexDataAux (original : List Vertex) :
    List Vertex → Nat → Option (List ℚ × List ℚ)
  | [], _ => some ([], [])
  | v :: rest, i =>
    match original.get? i with
    | none => none
    | some ov =>
      match meshVertexDataAux original rest (i + 1) with
      | none => none
      | some (offs, nors) =>
          some (offsetChannels (v.co.sub ov.co) ++ offs,
                normalChannels v.normal ++ nors)

/-- The outer loop `for me in meshes` of `get_vertex_data`, accumulating the
per-mesh channel lists in order. -/
def framesData (original : List Vertex) : List Mesh → Option (List ℚ × List ℚ)
  | [] => some ([], [])
  | me :: rest =>
    match meshVertexDataAux original me.vertices 0 with
    | none => none
    | some (o1, n1) =>
      match framesData original rest with
      | none => none
      | some (o2, n2) => some (o1 ++ o2, n1 ++ n2)

/-- The function `get_vertex_data(data, meshes)`: returns the flat offset and normal
channel lists.  `meshes[0]` on an empty list raises `IndexError` (`none`);
otherwise `original = meshes[0].vertices` is the reference pose and every
mesh (including `meshes[0]` itself) is traversed in order. -/
def get_vertex_data (meshes : List Mesh) : Option (List ℚ × List ℚ) :=
  match meshes with
  | [] => none
  | m0 :: _ => framesData m0.vertices meshes

/-- Reference-pose position of vertex `i` of frame `f` in a snapshot list
(meaningful when `f` and `i` are in range). -/
def posOf (meshes : List Mesh) (f i : Nat) : Vec3 :=
  (((meshes.getD f default).vertices.getD i default).co)

/-- Normal of vertex `i` of frame `f` in a snapshot list. -/
def normalOf (meshes : List Mesh) (f i : Nat) : Vec3 :=
  (((meshes.getD f default).vertices.getD i default).normal)

/-! ### Structural lemmas about the extractor -/

/-- Closed form of the inner loop's offset output. -/
def frameOffsets (original : List Vertex) : List Vertex → Nat → List ℚ
  | [], _ => []
  | v :: rest, i =>
      offsetChannels (v.co.sub (original.getD i default).co) ++
        frameOffsets original rest (i + 1)

/-- Closed form of the inner loop's normal output. -/
def frameNormals : List Vertex → List ℚ
  | [] => []
  | v :: rest => normalChannels v.normal ++ frameNormals rest

theorem meshVertexDataAux_eq (original : List Vertex) :
    ∀ (verts : List Vertex) (i : Nat), i + verts.length ≤ original.length →
      meshVertexDataAux original verts i =
        some (frameOffsets original verts i, frameNormals verts) := by
  intro verts
  induction verts with
  | nil => intro i _; rfl
  | cons v rest ih =>
      intro i hle
      have hi : i < original.length := by
        simp only [List.length_cons] at hle; omega
      have hrec := ih (i + 1) (by simp only [List.length_cons] at hle; omega)
      simp [meshVertexDataAux, List.get?_eq_getElem?, List.getElem?_eq_getElem hi,
        hrec, frameOffsets, frameNormals, List.getD]

theorem frameOffsets_length (original : List Vertex) :
    ∀ (verts : List Vertex) (i : Nat),
      (frameOffsets original verts i).length = 4 * verts.length := by
  intro verts
  induction verts with
  | nil => intro i; rfl
  | cons v rest ih =>
      intro i
      simp [frameOffsets, offsetChannels, ih, List.length_cons]
      omega

theorem frameNormals_length :
    ∀ verts : List Vertex, (frameNormals verts).length = 4 * verts.length := by
  intro verts
  induction verts with
  | nil => rfl
  | cons v rest ih =>
      simp [frameNormals, normalChannels, ih, List.length_cons]
      omega

/-- Total offset output over all frames, in frame order. -/
def totalOffsets (original : List Vertex) : List Mesh → List ℚ
  | [] => []
  | me :: rest => frameOffsets original me.vertices 0 ++ totalOffsets original rest

/-- Total normal output over all frames, in frame order. -/
def totalNormals : List Mesh → List ℚ
  | [] => []
  | me :: rest => frameNormals me.vertices ++ totalNormals rest

theorem framesData_eq (original : List Vertex) :
    ∀ meshes : List Mesh, (∀ me ∈ meshes, me.vertices.length ≤ original.length) →
      framesData original meshes =
        some (totalOffsets original meshes, totalNormals meshes) := by
  intro meshes
  induction meshes with
  | nil => intro _; rfl
  | cons me rest ih =>
      intro h
      have h1 : me.vertices.length ≤ original.length := h me (by simp)
      have haux := meshVertexDataAux_eq original me.vertices 0 (by omega)
      have hrec := ih (fun m hm => h m (by simp [hm]))
      simp [framesData, haux, hrec, totalOffsets, totalNormals]

theorem get_vertex_data_eq (m0 : Mesh) (rest : List Mesh)
    (h : ∀ me ∈ m0 :: rest, me.vertices.length ≤ m0.vertices.length) :
    get_vertex_data (m0 :: rest) =
      some (totalOffsets m0.vertices (m0 :: rest), totalNormals (m0 :: rest)) := by
  simpa [get_vertex_data] using framesData_eq m0.vertices (m0 :: rest) h

theorem totalOffsets_length (original : List Vertex) (V : Nat) :
    ∀ meshes : List Mesh, (∀ me ∈ meshes, me.vertices.length = V) →
      (totalOffsets original meshes).length = meshes.length * V * 4 := by
  intro meshes
  induction meshes with
  | nil => intro _; simp [totalOffsets]
  | cons me rest ih =>
      intro h
      have h1 : me.vertices.length = V := h me (by simp)
      have := frameOffsets_length original me.vertices 0
      simp only [totalOffsets, List.length_append, this, h1,
        ih (fun m hm => h m (by simp [hm])), List.length_cons]
      ring

theorem totalNormals_length (V : Nat) :
    ∀ meshes : List Mesh, (∀ me ∈ meshes, me.vertices.length = V) →
      (totalNormals meshes).length = meshes.length * V * 4 := by
  intro meshes
  induction meshes with
  | nil => intro _; simp [totalNormals]
  | cons me rest ih =>
      intro h
      have h1 : me.vertices.length = V := h me (by simp)
      simp only [totalNormals, List.length_append, frameNormals_length, h1,
        ih (fun m hm => h m (by simp [hm])), List.length_cons]
      ring

theorem frameOffsets_get (original : List Vertex) :
    ∀ (verts : List Vertex) (i0 j c : Nat), j < verts.length → c < 4 →
      (frameOffsets original verts i0)[4 * j + c]? =
        (offsetChannels
          ((verts.getD j default).co.sub (original.getD (i0 + j) default).co))[c]? := by
  intro verts
  induction verts with
  | nil => intro i0 j c hj _; simp at hj
  | cons v rest ih =>
      intro i0 j c hj hc
      match j with
      | 0 =>
          have hlt : 4 * 0 + c < (offsetChannels (v.co.sub (original.getD i0 default).co)).length := by
            simp [offsetChannels]; omega
          simp only [frameOffsets, List.getElem?_append_left hlt]
          simp
      | j' + 1 =>
          have hlen : (offsetChannels (v.co.sub (original.getD i0 default).co)).length ≤ 4 * (j' + 1) + c := by
            simp [offsetChannels]; omega
          rw [frameOffsets, List.getElem?_append_right hlen]
          have harith : 4 * (j' + 1) + c - (offsetChannels (v.co.sub (original.getD i0 default).co)).length = 4 * j' + c := by
            simp [offsetChannels]; omega
          rw [harith, ih (i0 + 1) j' c (by simpa using Nat.lt_of_succ_lt_succ hj) hc]
          have : i0 + 1 + j' = i0 + (j' + 1) := by omega
          simp [this]

theorem frameNormals_get :
    ∀ (verts : List Vertex) (j c : Nat), j < verts.length → c < 4 →
      (frameNormals verts)[4 * j + c]? =
        (normalChannels (verts.getD j default).normal)[c]? := by
  intro verts
  induction verts with
  | nil => intro j c hj _; simp at hj
  | cons v rest ih =>
      intro j c hj hc
      match j with
      | 0 =>
          have hlt : 4 * 0 + c < (normalChannels v.normal).length := by
            simp [normalChannels]; omega
          simp only [frameNormals, List.getElem?_append_left hlt]
          simp
      | j' + 1 =>
          have hlen : (normalChannels v.normal).length ≤ 4 * (j' + 1) + c := by
            simp [normalChannels]; omega
          rw [frameNormals, List.getElem?_append_right hlen]
          have harith : 4 * (j' + 1) + c - (normalChannels v.normal).length = 4 * j' + c := by
            simp [normalChannels]; omega
          rw [harith, ih j' c (by simpa using Nat.lt_of_succ_lt_succ hj) hc]
          simp

theorem totalOffsets_get (original : List Vertex) (V : Nat) :
    ∀ (meshes : List Mesh) (f i c : Nat), (∀ me ∈ meshes, me.vertices.length = V) →
      f < meshes.length → i < V → c < 4 →
      (totalOffsets original meshes)[(f * V + i) * 4 + c]? =
        (offsetChannels
          (((meshes.getD f default).vertices.getD i default).co.sub
            (original.getD i default).co))[c]? := by
  intro meshes
  induction meshes with
  | nil => intro f i c _ hf _ _; simp at hf
  | cons me rest ih =>
      intro f i c hV hf hi hc
      have h1 : me.vertices.length = V := hV me (by simp)
      have hchunk : (frameOffsets original me.vertices 0).length = 4 * V := by
        rw [frameOffsets_length, h1]
      match f with
      | 0 =>
          have hlt : (0 * V + i) * 4 + c < (frameOffsets original me.vertices 0).length := by
            rw [hchunk]; omega
          rw [totalOffsets, List.getElem?_append_left hlt]
          have harith : (0 * V + i) * 4 + c = 4 * i + c := by omega
          rw [harith, frameOffsets_get original me.vertices 0 i c (by omega) hc]
          simp
      | f' + 1 =>
          have hlen : (frameOffsets original me.vertices 0).length ≤ ((f' + 1) * V + i) * 4 + c := by
            rw [hchunk]; nlinarith
          rw [totalOffsets, List.getElem?_append_right hlen]
          have harith : ((f' + 1) * V + i) * 4 + c - (frameOffsets original me.vertices 0).length
              = (f' * V + i) * 4 + c := by
            rw [hchunk]; ring_nf; omega
          rw [harith, ih f' i c (fun m hm => hV m (by simp [hm]))
            (by simpa using Nat.lt_of_succ_lt_succ hf) hi hc]
          simp

theorem totalNormals_get (V : Nat) :
    ∀ (meshes : List Mesh) (f i c : Nat), (∀ me ∈ meshes, me.vertices.length = V) →
      f < meshes.length → i < V → c < 4 →
      (totalNormals meshes)[(f * V + i) * 4 + c]? =
        (normalChannels ((meshes.getD f default).vertices.getD i default).normal)[c]? := by
  intro meshes
  induction meshes with
  | nil => intro f i c _ hf _ _; simp at hf
  | cons me rest ih =>
      intro f i c hV hf hi hc
      have h1 : me.vertices.length = V := hV me (by simp)
      have hchunk : (frameNormals me.vertices).length = 4 * V := by
        rw [frameNormals_length, h1]
      match f with
      | 0 =>
          have hlt : (0 * V + i) * 4 + c < (frameNormals me.vertices).length := by
            rw [hchunk]; omega
          rw [totalNormals, List.getElem?_append_left hlt]
          have harith : (0 * V + i) * 4 + c = 4 * i + c := by omega
          rw [harith, frameNormals_get me.vertices i c (by omega) hc]
          simp
      | f' + 1 =>
          have hlen : (frameNormals me.vertices).length ≤ ((f' + 1) * V + i) * 4 + c := by
            rw [hchunk]; nlinarith
          rw [totalNormals, List.getElem?_append_right hlen]
          have harith : ((f' + 1) * V + i) * 4 + c - (frameNormals me.vertices).length
              = (f' * V + i) * 4 + c := by
            rw [hchunk]; ring_nf; omega
          rw [harith, ih f' i c (fun m hm => hV m (by simp [hm]))
            (by simpa using Nat.lt_of_succ_lt_succ hf) hi hc]
          simp

theorem mem_frameNormals :
    ∀ (verts : List Vertex) (q : ℚ), q ∈ frameNormals verts →
      ∃ v ∈ verts, q ∈ normalChannels v.normal := by
  intro verts
  induction verts with
  | nil => intro q hq; simp [frameNormals] at hq
  | cons v vs ihv =>
      intro q hq
      simp only [frameNormals, List.mem_append] at hq
      rcases hq with hq | hq
      · exact ⟨v, by simp, hq⟩
      · obtain ⟨w, hw, hqw⟩ := ihv q hq
        exact ⟨w, by simp [hw], hqw⟩

theorem mem_totalNormals :
    ∀ (meshes : List Mesh) (q : ℚ), q ∈ totalNormals meshes →
      ∃ me ∈ meshes, ∃ v ∈ me.vertices, q ∈ normalChannels v.normal := by
  intro meshes
  induction meshes with
  | nil => intro q hq; simp [totalNormals] at hq
  | cons me rest ih =>
      intro q hq
      rw [totalNormals, List.mem_append] at hq
      rcases hq with hq | hq
      · exact ⟨me, by simp, mem_frameNormals me.vertices q hq⟩
      · obtain ⟨m, hm, hv⟩ := ih q hq
        exact ⟨m, by simp [hm], hv⟩

/-! ### Decoders (from the claimed round-trip formulas) and probe inputs -/

/-- Decoder for a normal entry, as the claim states it:
`c ↦ (2*c.r - 1, -(2*c.g - 1), 2*c.b - 1)`. -/
def decodeNormal (c : List ℚ) : Vec3 :=
  ⟨2 * c.getD 0 0 - 1, -(2 * c.getD 1 0 - 1), 2 * c.getD 2 0 - 1⟩

/-- Decoder for an offset entry, as the claim states it: negate the second
channel, keep the first and third. -/
def decodeOffset (c : List ℚ) : Vec3 :=
  ⟨c.getD 0 0, -(c.getD 1 0), c.getD 2 0⟩

/-- A single vertex at rest at the origin. -/
def exM0 : Mesh := ⟨"mesh", [⟨⟨0, 0, 0⟩, ⟨0, 0, 1⟩⟩]⟩

/-- The same vertex moved by world delta `(1, 2, 3)` at frame 1. -/
def exM1 : Mesh := ⟨"mesh", [⟨⟨1, 2, 3⟩, ⟨0, 0, 1⟩⟩]⟩

/-- A two-frame, one-vertex snapshot list whose frame-1 x-delta is `t`. -/
def offsetProbe (t : ℚ) : List Mesh :=
  [⟨"mesh", [⟨⟨0, 0, 0⟩, ⟨0, 0, 0⟩⟩]⟩, ⟨"mesh", [⟨⟨t, 0, 0⟩, ⟨0, 0, 0⟩⟩]⟩]

/-! ### Claim theorems -/

/-- Claim C1: for snapshots of fixed vertex count, the offset entry for
frame `f`, vertex `i` is the four channels `(dx, -dy, dz, 1)` where
`(dx, dy, dz) = position[f][i] - position[0][i]`, frame 0 being the
reference. -/
theorem get_vertex_data_offset_entry
    (meshes : List Mesh) (V f i : Nat)
    (hne : meshes ≠ [])
    (hV : ∀ me ∈ meshes, me.vertices.length = V)
    (hf : f < meshes.length) (hi : i < V) :
    ∃ offs nors, get_vertex_data meshes = some (offs, nors) ∧
      offs[(f * V + i) * 4]? = some ((posOf meshes f i).x - (posOf meshes 0 i).x) ∧
      offs[(f * V + i) * 4 + 1]? = some (-((posOf meshes f i).y - (posOf meshes 0 i).y)) ∧
      offs[(f * V + i) * 4 + 2]? = some ((posOf meshes f i).z - (posOf meshes 0 i).z) ∧
      offs[(f * V + i) * 4 + 3]? = some 1 := by
  match meshes, hne with
  | m0 :: rest, _ =>
    have hVm0 : m0.vertices.length = V := hV m0 (by simp)
    have hle : ∀ me ∈ m0 :: rest, me.vertices.length ≤ m0.vertices.length := by
      intro me hme; rw [hV me hme, hVm0]
    refine ⟨_, _, get_vertex_data_eq m0 rest hle, ?_, ?_, ?_, ?_⟩
    · have h := totalOffsets_get m0.vertices V (m0 :: rest) f i 0 hV hf hi (by omega)
      simpa [offsetChannels, posOf, Vec3.sub] using h
    · have h := totalOffsets_get m0.vertices V (m0 :: rest) f i 1 hV hf hi (by omega)
      simpa [offsetChannels, posOf, Vec3.sub] using h
    · have h := totalOffsets_get m0.vertices V (m0 :: rest) f i 2 hV hf hi (by omega)
      simpa [offsetChannels, posOf, Vec3.sub] using h
    · have h := totalOffsets_get m0.vertices V (m0 :: rest) f i 3 hV hf hi (by omega)
      simpa [offsetChannels, posOf, Vec3.sub] using h

/-- Witness for C1: one vertex moving by world delta `(1, 2, 3)` between
frame 0 and frame 1 yields channels `(1, -2, 3, 1)` in its frame-1 entry. -/
theorem get_vertex_data_offset_entry_witness :
    ([exM0, exM1] ≠ ([] : List Mesh)) ∧
    (∀ me ∈ [exM0, exM1], me.vertices.length = 1) ∧
    (1 : Nat) < 2 ∧ (0 : Nat) < 1 ∧
    ∃ offs nors, get_vertex_data [exM0, exM1] = some (offs, nors) ∧
      offs[4]? = some 1 ∧ offs[5]? = some (-2 : ℚ) ∧
      offs[6]? = some 3 ∧ offs[7]? = some 1 := by
  have h1 : [exM0, exM1] ≠ ([] : List Mesh) := by simp
  have h2 : ∀ me ∈ [exM0, exM1], me.vertices.length = 1 := by
    intro me hme
    fin_cases hme <;> simp [exM0, exM1]
  refine ⟨h1, h2, by omega, by omega, ?_⟩
  obtain ⟨offs, nors, heq, e0, e1, e2, e3⟩ :=
    get_vertex_data_offset_entry [exM0, exM1] 1 1 0 h1 h2 (by simp) (by omega)
  refine ⟨offs, nors, heq, ?_, ?_, ?_, ?_⟩
  · simpa [posOf, exM0, exM1] using e0
  · simpa [posOf, exM0, exM1] using e1
  · simpa [posOf, exM0, exM1] using e2
  · simpa using e3

/-- Claim C2: the frame-0 offset entry of every vertex is exactly
`(0, 0, 0, 1)`, because the reference positions are the frame-0 snapshot's
own positions. -/
theorem get_vertex_data_frame0_offset
    (meshes : List Mesh) (V i : Nat)
    (hne : meshes ≠ [])
    (hV : ∀ me ∈ meshes, me.vertices.length = V)
    (hi : i < V) :
    ∃ offs nors, get_vertex_data meshes = some (offs, nors) ∧
      offs[i * 4]? = some 0 ∧
      offs[i * 4 + 1]? = some 0 ∧
      offs[i * 4 + 2]? = some 0 ∧
      offs[i * 4 + 3]? = some 1 := by
  match meshes, hne with
  | m0 :: rest, _ =>
    have hVm0 : m0.vertices.length = V := hV m0 (by simp)
    have hle : ∀ me ∈ m0 :: rest, me.vertices.length ≤ m0.vertices.length := by
      intro me hme; rw [hV me hme, hVm0]
    have hf0 : 0 < (m0 :: rest).length := by simp
    refine ⟨_, _, get_vertex_data_eq m0 rest hle, ?_, ?_, ?_, ?_⟩
    · have h := totalOffsets_get m0.vertices V (m0 :: rest) 0 i 0 hV hf0 hi (by omega)
      simpa [offsetChannels, Vec3.sub] using h
    · have h := totalOffsets_get m0.vertices V (m0 :: rest) 0 i 1 hV hf0 hi (by omega)
      simpa [offsetChannels, Vec3.sub] using h
    · have h := totalOffsets_get m0.vertices V (m0 :: rest) 0 i 2 hV hf0 hi (by omega)
      simpa [offsetChannels, Vec3.sub] using h
    · have h := totalOffsets_get m0.vertices V (m0 :: rest) 0 i 3 hV hf0 hi (by omega)
      simpa [offsetChannels, Vec3.sub] using h

/-- Witness for C2 at a concrete two-frame list with a moving vertex. -/
theorem get_vertex_data_frame0_offset_witness :
    ([exM0, exM1] ≠ ([] : List Mesh)) ∧
    (∀ me ∈ [exM0, exM1], me.vertices.length = 1) ∧
    (0 : Nat) < 1 ∧
    ∃ offs nors, get_vertex_data [exM0, exM1] = some (offs, nors) ∧
      offs[0]? = some 0 ∧ offs[1]? = some 0 ∧
      offs[2]? = some 0 ∧ offs[3]? = some 1 := by
  have h1 : [exM0, exM1] ≠ ([] : List Mesh) := by simp
  have h2 : ∀ me ∈ [exM0, exM1], me.vertices.length = 1 := by
    intro me hme
    fin_cases hme <;> simp [exM0, exM1]
  refine ⟨h1, h2, by omega, ?_⟩
  obtain ⟨offs, nors, heq, e0, e1, e2, e3⟩ :=
    get_vertex_data_frame0_offset [exM0, exM1] 1 0 h1 h2 (by omega)
  exact ⟨offs, nors, heq, by simpa using e0, by simpa using e1,
    by simpa using e2, by simpa using e3⟩

/-- Claim C3: the normal entry for frame `f`, vertex `i` with normal
`(x, y, z)` is `((x+1)*0.5, (-y+1)*0.5, (z+1)*0.5, 1)`; whenever every
normal component lies in `[-1, 1]` every emitted normal channel lies in
`[0, 1]`; the offset channels are unclamped — every rational value is
attainable as an emitted offset channel. -/
theorem get_vertex_data_normal_entry
    (meshes : List Mesh) (V : Nat)
    (hne : meshes ≠ [])
    (hV : ∀ me ∈ meshes, me.vertices.length = V) :
    ∃ offs nors, get_vertex_data meshes = some (offs, nors) ∧
      (∀ f i, f < meshes.length → i < V →
        nors[(f * V + i) * 4]? = some (((normalOf meshes f i).x + 1) * (1/2)) ∧
        nors[(f * V + i) * 4 + 1]? = some ((-(normalOf meshes f i).y + 1) * (1/2)) ∧
        nors[(f * V + i) * 4 + 2]? = some (((normalOf meshes f i).z + 1) * (1/2)) ∧
        nors[(f * V + i) * 4 + 3]? = some 1) ∧
      ((∀ me ∈ meshes, ∀ v ∈ me.vertices,
          |v.normal.x| ≤ 1 ∧ |v.normal.y| ≤ 1 ∧ |v.normal.z| ≤ 1) →
        ∀ q ∈ nors, 0 ≤ q ∧ q ≤ 1) ∧
      (∀ t : ℚ, ∃ offs2 nors2,
        get_vertex_data (offsetProbe t) = some (offs2, nors2) ∧
        offs2[4]? = some t) := by
  match meshes, hne with
  | m0 :: rest, _ =>
    have hVm0 : m0.vertices.length = V := hV m0 (by simp)
    have hle : ∀ me ∈ m0 :: rest, me.vertices.length ≤ m0.vertices.length := by
      intro me hme; rw [hV me hme, hVm0]
    refine ⟨_, _, get_vertex_data_eq m0 rest hle, ?_, ?_, ?_⟩
    · intro f i hf hi
      refine ⟨?_, ?_, ?_, ?_⟩
      · have h := totalNormals_get V (m0 :: rest) f i 0 hV hf hi (by omega)
        simpa [normalChannels, normalOf] using h
      · have h := totalNormals_get V (m0 :: rest) f i 1 hV hf hi (by omega)
        simpa [normalChannels, normalOf] using h
      · have h := totalNormals_get V (m0 :: rest) f i 2 hV hf hi (by omega)
        simpa [normalChannels, normalOf] using h
      · have h := totalNormals_get V (m0 :: rest) f i 3 hV hf hi (by omega)
        simpa [normalChannels, normalOf] using h
    · intro hbound q hq
      obtain ⟨me, hme, v, hv, hqmem⟩ := mem_totalNormals (m0 :: rest) q hq
      obtain ⟨hx, hy, hz⟩ := hbound me hme v hv
      rw [abs_le] at hx hy hz
      simp only [normalChannels, List.mem_cons, List.mem_singleton,
        List.not_mem_nil, or_false] at hqmem
      rcases hqmem with rfl | rfl | rfl | rfl
      · constructor <;> linarith [hx.1, hx.2]
      · constructor <;> linarith [hy.1, hy.2]
      · constructor <;> linarith [hz.1, hz.2]
      · constructor <;> norm_num
    · intro t
      refine ⟨_, _, rfl, ?_⟩
      simp [offsetProbe, Vec3.sub, offsetChannels, normalChannels,
        get_vertex_data, framesData, meshVertexDataAux]

/-- Witness for C3 at a concrete two-frame list. -/
theorem get_vertex_data_normal_entry_witness :
    ([exM0, exM1] ≠ ([] : List Mesh)) ∧
    (∀ me ∈ [exM0, exM1], me.vertices.length = 1) ∧
    ∃ offs nors, get_vertex_data [exM0, exM1] = some (offs, nors) ∧
      nors[0]? = some (1/2) ∧ nors[1]? = some (1/2) ∧
      nors[2]? = some 1 ∧ nors[3]? = some 1 ∧
      (∀ q ∈ nors, 0 ≤ q ∧ q ≤ 1) := by
  have h1 : [exM0, exM1] ≠ ([] : List Mesh) := by simp
  have h2 : ∀ me ∈ [exM0, exM1], me.vertices.length = 1 := by
    intro me hme
    fin_cases hme <;> simp [exM0, exM1]
  refine ⟨h1, h2, ?_⟩
  obtain ⟨offs, nors, heq, hentry, hrange, _⟩ :=
    get_vertex_data_normal_entry [exM0, exM1] 1 h1 h2
  obtain ⟨e0, e1, e2, e3⟩ := hentry 0 0 (by simp) (by omega)
  refine ⟨offs, nors, heq, ?_, ?_, ?_, ?_, ?_⟩
  · simpa [normalOf, exM0, exM1] using e0
  · simpa [normalOf, exM0, exM1] using e1
  · rw [show ((0:Nat) * 1 + 0) * 4 + 2 = 2 by omega] at e2
    rw [e2]
    norm_num [normalOf, exM0, exM1]
  · simpa using e3
  · refine hrange ?_
    intro me hme v hv
    fin_cases hme <;> simp_all [exM0, exM1]

/-- Claim C4: with `frame_count` snapshots all of vertex count `V`, both
returned lists have length `frame_count * V * 4`, laid out frame-major,
then vertex-major, then channel-last. -/
theorem get_vertex_data_length_layout
    (meshes : List Mesh) (V : Nat)
    (hne : meshes ≠ [])
    (hV : ∀ me ∈ meshes, me.vertices.length = V) :
    ∃ offs nors, get_vertex_data meshes = some (offs, nors) ∧
      offs.length = meshes.length * V * 4 ∧
      nors.length = meshes.length * V * 4 ∧
      (∀ f i c, f < meshes.length → i < V → c < 4 →
        offs[(f * V + i) * 4 + c]? =
          (offsetChannels ((posOf meshes f i).sub (posOf meshes 0 i)))[c]? ∧
        nors[(f * V + i) * 4 + c]? =
          (normalChannels (normalOf meshes f i))[c]?) := by
  match meshes, hne with
  | m0 :: rest, _ =>
    have hVm0 : m0.vertices.length = V := hV m0 (by simp)
    have hle : ∀ me ∈ m0 :: rest, me.vertices.length ≤ m0.vertices.length := by
      intro me hme; rw [hV me hme, hVm0]
    refine ⟨_, _, get_vertex_data_eq m0 rest hle,
      totalOffsets_length m0.vertices V (m0 :: rest) hV,
      totalNormals_length V (m0 :: rest) hV, ?_⟩
    intro f i c hf hi hc
    constructor
    · have h := totalOffsets_get m0.vertices V (m0 :: rest) f i c hV hf hi hc
      simpa [posOf, Vec3.sub] using h
    · have h := totalNormals_get V (m0 :: rest) f i c hV hf hi hc
      simpa [normalOf] using h

/-- Witness for C4 at a concrete two-frame, one-vertex list. -/
theorem get_vertex_data_length_layout_witness :
    ([exM0, exM1] ≠ ([] : List Mesh)) ∧
    (∀ me ∈ [exM0, exM1], me.vertices.length = 1) ∧
    ∃ offs nors, get_vertex_data [exM0, exM1] = some (offs, nors) ∧
      offs.length = 8 ∧ nors.length = 8 := by
  have h1 : [exM0, exM1] ≠ ([] : List Mesh) := by simp
  have h2 : ∀ me ∈ [exM0, exM1], me.vertices.length = 1 := by
    intro me hme
    fin_cases hme <;> simp [exM0, exM1]
  refine ⟨h1, h2, ?_⟩
  obtain ⟨offs, nors, heq, hlo, hln, _⟩ :=
    get_vertex_data_length_layout [exM0, exM1] 1 h1 h2
  exact ⟨offs, nors, heq, by simpa using hlo, by simpa using hln⟩

theorem framesData_congr (original : List Vertex) :
    ∀ (a b : List Mesh), a.map Mesh.vertices = b.map Mesh.vertices →
      framesData original a = framesData original b := by
  intro a
  induction a with
  | nil =>
      intro b h
      cases b with
      | nil => rfl
      | cons _ _ => simp at h
  | cons ma resta ih =>
      intro b h
      cases b with
      | nil => simp at h
      | cons mb restb =>
          simp only [List.map_cons, List.cons.injEq] at h
          obtain ⟨hhead, htail⟩ := h
          simp only [framesData, hhead, ih restb htail]

/-- Claim C8: `get_vertex_data` is a pure function of the sampled geometry —
two snapshot lists with identical per-frame vertex sequences (positions and
normals, in order) produce identical offset and normal outputs, whatever
other mesh attributes (such as names) differ. -/
theorem get_vertex_data_deterministic
    (meshes1 meshes2 : List Mesh)
    (h : meshes1.map Mesh.vertices = meshes2.map Mesh.vertices) :
    get_vertex_data meshes1 = get_vertex_data meshes2 := by
  cases meshes1 with
  | nil =>
      cases meshes2 with
      | nil => rfl
      | cons _ _ => simp at h
  | cons m1 rest1 =>
      cases meshes2 with
      | nil => simp at h
      | cons m2 rest2 =>
          have hhead : m1.vertices = m2.vertices := by
            simpa using congrArg (fun l => l.headD []) h
          simp only [get_vertex_data, hhead]
          exact framesData_congr m2.vertices _ _ (by simpa [hhead] using h)

/-- Witness for C8: two runs whose snapshots differ only in mesh names give
identical outputs. -/
theorem get_vertex_data_deterministic_witness :
    ([⟨"a", [⟨⟨1, 2, 3⟩, ⟨0, 0, 1⟩⟩]⟩] : List Mesh).map Mesh.vertices =
      ([⟨"b", [⟨⟨1, 2, 3⟩, ⟨0, 0, 1⟩⟩]⟩] : List Mesh).map Mesh.vertices ∧
    get_vertex_data [⟨"a", [⟨⟨1, 2, 3⟩, ⟨0, 0, 1⟩⟩]⟩] =
      get_vertex_data [⟨"b", [⟨⟨1, 2, 3⟩, ⟨0, 0, 1⟩⟩]⟩] := by
  refine ⟨rfl, get_vertex_data_deterministic _ _ rfl⟩

/-- Claim C9: the channel encodings are reversible — decoding a normal entry
by `c ↦ (2*c.r - 1, -(2*c.g - 1), 2*c.b - 1)` recovers the normal exactly,
and decoding an offset entry by negating its second channel recovers the
offset exactly. -/
theorem channels_roundtrip (n d : Vec3) :
    decodeNormal (normalChannels n) = n ∧ decodeOffset (offsetChannels d) = d := by
  cases n with
  | mk nx ny nz =>
      cases d with
      | mk dx dy dz =>
          constructor
          · simp only [decodeNormal, normalChannels, List.getD_cons_zero,
              List.getD_cons_succ, Vec3.mk.injEq]
            refine ⟨by ring, by ring, by ring⟩
          · simp only [decodeOffset, offsetChannels, List.getD_cons_zero,
              List.getD_cons_succ, Vec3.mk.injEq]
            exact ⟨trivial, neg_neg dy, trivial⟩

/-! ### UV addressing (`create_export_mesh_object`) -/

/-- One UV layer: a name and one UV pair per loop, indexed by `loop.index`. -/
structure UVLayer where
  name : String
  data : List (ℚ × ℚ)
  deriving Repr, DecidableEq, Inhabited

/-- The mesh data consumed by `create_export_mesh_object`: its vertices, its
loops (`loop.vertex_index`, listed in `loop.index` order), and its UV
layers.  Invariant of the host: every layer holds one UV pair per loop. -/
structure UVMesh where
  vertices : List Vertex
  loops : List Nat
  uv_layers : List UVLayer
  deriving Repr, DecidableEq, Inhabited

/-- A fresh layer made by `me.uv_layers.new()`: default-initialised UVs, one
per loop. -/
def newUVLayer (numLoops : Nat) : UVLayer :=
  ⟨"UVMap", List.replicate numLoops (0, 0)⟩

/-- The loop `for loop in me.loops: uv_layer.data[loop.index].uv = ...`,
walking the loops in order with running index `idx` (`loop.index`). -/
def assignUV (V : Nat) : List Nat → Nat → List (ℚ × ℚ) → List (ℚ × ℚ)
  | [], _, d => d
  | vi :: rest, idx, d =>
      assignUV V rest (idx + 1) (d.set idx (((vi : ℚ) + 1/2) / (V : ℚ), 0))

/-- The function `create_export_mesh_object(context, data, me)` on the mesh datablock:
pads `uv_layers` to two layers (`while len(me.uv_layers) < 2`), renames the
second to `"vertex_anim"` and overwrites its per-loop UVs with
`((loop.vertex_index + 0.5)/len(me.vertices), 0.0)`.  The wrapping of the
result into a scene object (`data.objects.new` plus collection link) is
tracked as an effect of `execute`. -/
def create_export_mesh_object (me : UVMesh) : UVMesh :=
  let layers := me.uv_layers ++
    List.replicate (2 - me.uv_layers.length) (newUVLayer me.loops.length)
  let uv_layer := layers.getD 1 default
  let uv_layer2 : UVLayer :=
    ⟨"vertex_anim", assignUV me.vertices.length me.loops 0 uv_layer.data⟩
  { me with uv_layers := layers.set 1 uv_layer2 }

theorem assignUV_length (V : Nat) :
    ∀ (loops : List Nat) (idx : Nat) (d : List (ℚ × ℚ)),
      (assignUV V loops idx d).length = d.length := by
  intro loops
  induction loops with
  | nil => intro idx d; rfl
  | cons vi rest ih =>
      intro idx d
      rw [assignUV, ih, List.length_set]

theorem assignUV_get_lt (V : Nat) :
    ∀ (loops : List Nat) (idx : Nat) (d : List (ℚ × ℚ)) (k : Nat), k < idx →
      (assignUV V loops idx d)[k]? = d[k]? := by
  intro loops
  induction loops with
  | nil => intro idx d k _; rfl
  | cons vi rest ih =>
      intro idx d k hk
      rw [assignUV, ih (idx + 1) _ k (by omega)]
      exact List.getElem?_set_ne (by omega)

theorem assignUV_get (V : Nat) :
    ∀ (loops : List Nat) (idx : Nat) (d : List (ℚ × ℚ)) (j : Nat),
      j < loops.length → idx + loops.length ≤ d.length →
      (assignUV V loops idx d)[idx + j]? =
        some ((((loops.getD j 0 : Nat) : ℚ) + 1/2) / (V : ℚ), 0) := by
  intro loops
  induction loops with
  | nil => intro idx d j hj _; simp at hj
  | cons vi rest ih =>
      intro idx d j hj hd
      simp only [List.length_cons] at hj hd
      match j with
      | 0 =>
          rw [assignUV, assignUV_get_lt V rest (idx + 1) _ (idx + 0) (by omega)]
          have hidx : idx < d.length := by omega
          simp [List.getElem?_set_eq_of_lt _ (by simpa using hidx)]
      | j' + 1 =>
          have : idx + (j' + 1) = (idx + 1) + j' := by omega
          rw [assignUV, this, ih (idx + 1) _ j' (by omega) (by simp [List.length_set]; omega)]
          simp

/-- Claim C6: `create_export_mesh_object` leaves the mesh with at least two
UV channels, names the second `"vertex_anim"`, and assigns the loop at
index `j` (vertex index `i = loops[j]`) the UV `((i + 0.5)/V, 0.0)`; for
`V ≥ 1` the map `i ↦ (i + 0.5)/V` is strictly increasing and lands in
`(0, 1)` for `i < V`; the first, pre-existing UV channel is untouched. -/
theorem create_export_mesh_object_spec
    (me : UVMesh) (V : Nat)
    (hV : me.vertices.length = V) (hVpos : 1 ≤ V)
    (hlayers : ∀ l ∈ me.uv_layers, l.data.length = me.loops.length) :
    2 ≤ (create_export_mesh_object me).uv_layers.length ∧
    (∃ layer2, (create_export_mesh_object me).uv_layers[1]? = some layer2 ∧
      layer2.name = "vertex_anim" ∧
      ∀ j, j < me.loops.length →
        layer2.data[j]? =
          some ((((me.loops.getD j 0 : Nat) : ℚ) + 1/2) / (V : ℚ), 0)) ∧
    (∀ i1 i2 : Nat, i1 < i2 →
      (((i1 : ℚ) + 1/2) / (V : ℚ)) < (((i2 : ℚ) + 1/2) / (V : ℚ))) ∧
    (∀ i : Nat, i < V →
      0 < (((i : ℚ) + 1/2) / (V : ℚ)) ∧ (((i : ℚ) + 1/2) / (V : ℚ)) < 1) ∧
    (∀ l0, me.uv_layers[0]? = some l0 →
      (create_export_mesh_object me).uv_layers[0]? = some l0) := by
  have hVQ : (0 : ℚ) < V := by exact_mod_cast hVpos
  set layers := me.uv_layers ++
    List.replicate (2 - me.uv_layers.length) (newUVLayer me.loops.length) with hlay
  have hlen : layers.length = me.uv_layers.length + (2 - me.uv_layers.length) := by
    simp [hlay]
  have h1lt : 1 < layers.length := by omega
  have hr : (create_export_mesh_object me).uv_layers =
      layers.set 1
        ⟨"vertex_anim", assignUV V me.loops 0 (layers.getD 1 default).data⟩ := by
    simp only [create_export_mesh_object, hV, hlay]
  have hdl : (layers.getD 1 default).data.length = me.loops.length := by
    rcases Nat.lt_or_ge 1 me.uv_layers.length with h2 | h2
    · have hmem : layers.getD 1 default = me.uv_layers[1] := by
        rw [List.getD_eq_getElem?_getD, hlay, List.getElem?_append_left h2,
          List.getElem?_eq_getElem h2]
        rfl
      rw [hmem]
      exact hlayers _ (List.getElem_mem h2)
    · have hrep : layers[1]? = some (newUVLayer me.loops.length) := by
        rw [hlay, List.getElem?_append_right h2, List.getElem?_replicate,
          if_pos (by omega)]
      rw [List.getD_eq_getElem?_getD, hrep]
      simp [newUVLayer]
  refine ⟨?_, ?_, ?_, ?_, ?_⟩
  · rw [hr, List.length_set]; omega
  · refine ⟨⟨"vertex_anim", assignUV V me.loops 0 (layers.getD 1 default).data⟩,
      ?_, rfl, ?_⟩
    · rw [hr]
      exact List.getElem?_set_eq_of_lt _ h1lt
    · intro j hj
      have := assignUV_get V me.loops 0 (layers.getD 1 default).data j hj (by omega)
      simpa using this
  · intro i1 i2 h12
    have h12Q : (i1 : ℚ) < i2 := by exact_mod_cast h12
    gcongr
  · intro i hi
    constructor
    · positivity
    · rw [div_lt_one hVQ]
      have : (i : ℚ) + 1 ≤ V := by exact_mod_cast Nat.succ_le_of_lt hi
      linarith
  · intro l0 hl0
    have h0 : 0 < me.uv_layers.length := by
      cases hme : me.uv_layers with
      | nil => rw [hme] at hl0; simp at hl0
      | cons _ _ => simp [hme]
    rw [hr, List.getElem?_set_ne (by omega), hlay, List.getElem?_append_left h0]
    exact hl0

/-- The witness mesh for C6: two vertices, loops `[0, 1]`, one existing UV
layer. -/
def exUVMesh : UVMesh := ⟨[default, default], [0, 1], [⟨"UVMap", [(3, 3), (4, 4)]⟩]⟩

/-- Witness for C6: the witness mesh gets `"vertex_anim"` UVs `(1/4, 0)` and
`(3/4, 0)`, and the first layer survives unchanged. -/
theorem create_export_mesh_object_spec_witness :
    exUVMesh.vertices.length = 2 ∧
    (1 : Nat) ≤ 2 ∧
    (∀ l ∈ exUVMesh.uv_layers, l.data.length = exUVMesh.loops.length) ∧
    (∃ layer2, (create_export_mesh_object exUVMesh).uv_layers[1]? = some layer2 ∧
      layer2.name = "vertex_anim" ∧
      layer2.data[0]? = some ((1/4 : ℚ), (0 : ℚ)) ∧
      layer2.data[1]? = some ((3/4 : ℚ), (0 : ℚ))) ∧
    (create_export_mesh_object exUVMesh).uv_layers[0]? =
      some ⟨"UVMap", [(3, 3), (4, 4)]⟩ := by
  have hlayers : ∀ l ∈ exUVMesh.uv_layers, l.data.length = exUVMesh.loops.length := by
    intro l hl
    fin_cases hl
    rfl
  obtain ⟨hlen, ⟨layer2, hget, hname, hdata⟩, hmono, hbound, hfirst⟩ :=
    create_export_mesh_object_spec exUVMesh 2 rfl (by omega) hlayers
  refine ⟨rfl, by omega, hlayers, ⟨layer2, hget, hname, ?_, ?_⟩, hfirst _ rfl⟩
  · have := hdata 0 (by simp [exUVMesh])
    norm_num [exUVMesh] at this
    simpa using this
  · have := hdata 1 (by simp [exUVMesh])
    norm_num [exUVMesh] at this
    simpa using this

/-! ### The export operator (`OBJECT_OT_ProcessAnimMeshes.execute`)

The operator's control flow and its effects on the host data store are
modelled explicitly; the geometry payload comes from the external scene
evaluator and is covered by the `get_vertex_data` development above.
Report messages are modelled by `ExecError`, which carries exactly the
datum each f-string interpolates (the modifier type name, or the offending
count). -/

/-- The property `allowed_modifiers` of `OBJECT_OT_ProcessAnimMeshes`. -/
def allowed_modifiers : List String :=
  ["ARMATURE", "CAST", "CURVE", "DISPLACE", "HOOK",
   "LAPLACIANDEFORM", "LATTICE", "MESH_DEFORM",
   "SHRINKWRAP", "SIMPLE_DEFORM", "SMOOTH",
   "CORRECTIVE_SMOOTH", "LAPLACIANSMOOTH",
   "SURFACE_DEFORM", "WARP", "WAVE"]

/-- A scene object as `execute` reads it: its `ob.type`, the types of its
modifiers in stack order, and `len(ob.data.vertices)`. -/
structure SceneObject where
  type : String
  modifiers : List String
  vertexCount : Nat
  deriving Repr, DecidableEq, Inhabited

/-- The scene frame settings read by `frame_range`. -/
structure Scene where
  frame_start : Int
  frame_end : Int
  frame_step : Int
  deriving Repr, DecidableEq, Inhabited

/-- Length of the Python `range(start, stop, step)`; `step = 0` raises
`ValueError` in Python, which callers of this model treat separately. -/
def pyRangeLen (start stop step : Int) : Nat :=
  if 0 < step then ((stop - start) + step - 1).toNat / step.toNat
  else if step < 0 then ((start - stop) + (-step) - 1).toNat / (-step).toNat
  else 0

/-- The function `frame_range(scene)`: `range(scene.frame_start, scene.frame_end + 1,
scene.frame_step)` as the list of frame numbers it yields. -/
def frame_range (s : Scene) : List Int :=
  List.map (fun k : Nat => s.frame_start + s.frame_step * (k : Int))
    (List.range (pyRangeLen s.frame_start (s.frame_end + 1) s.frame_step))

theorem frame_range_length (s : Scene) :
    (frame_range s).length = pyRangeLen s.frame_start (s.frame_end + 1) s.frame_step := by
  rw [frame_range, List.length_map, List.length_range]

/-- The error reported via `self.report({'ERROR'}, ...)`, carrying the
datum the message interpolates. -/
inductive ExecError where
  | disallowedModifier (modType : String)
  | vertexLimit (count : Nat)
  | frameLimit (count : Nat)
  deriving Repr, DecidableEq

/-- Outcome of the operator: the returned set, or an uncaught Python
exception (`ValueError` from `range` step 0, `IndexError` from `meshes[0]`
on an empty frame range). -/
inductive ExecStatus where
  | FINISHED
  | CANCELLED
  | RAISED
  deriving Repr, DecidableEq

/-- The operator's result together with its effects on the host: frames
sampled (`frame_set`), meshes added to and removed from `data.meshes`
(split into the per-object temporaries of `get_per_frame_mesh_data` and
the combined per-frame snapshots), the export mesh datablock
(`meshes[0].copy()`), the export object (`data.objects.new` plus scene
link), images created in `data.images`, and files written to disk. -/
structure ExecResult where
  status : ExecStatus
  error : Option ExecError
  framesSampled : List Int
  tempMeshesCreated : Nat
  tempMeshesRemoved : Nat
  perFrameMeshesCreated : Nat
  perFrameMeshesRemoved : Nat
  exportMeshesCreated : Nat
  exportObjectsCreated : Nat
  imagesCreated : List String
  filesWritten : List String
  deriving Repr, DecidableEq

/-- A `return {'CANCELLED'}` taken before any sampling: only the report is
emitted, nothing else happens. -/
def cancelledResult (e : ExecError) : ExecResult :=
  { status := .CANCELLED, error := some e, framesSampled := [],
    tempMeshesCreated := 0, tempMeshesRemoved := 0,
    perFrameMeshesCreated := 0, perFrameMeshesRemoved := 0,
    exportMeshesCreated := 0, exportObjectsCreated := 0,
    imagesCreated := [], filesWritten := [] }

/-- An uncaught exception before any sampling effect. -/
def raisedResult : ExecResult :=
  { status := .RAISED, error := none, framesSampled := [],
    tempMeshesCreated := 0, tempMeshesRemoved := 0,
    perFrameMeshesCreated := 0, perFrameMeshesRemoved := 0,
    exportMeshesCreated := 0, exportObjectsCreated := 0,
    imagesCreated := [], filesWritten := [] }

/-- The filter `[ob for ob in context.selected_objects if ob.type == 'MESH']`. -/
def selected_mesh_objects (selected : List SceneObject) : List SceneObject :=
  selected.filter (fun ob => ob.type == "MESH")

/-- The nested loop `for ob in objects: for mod in ob.modifiers:` — the
first modifier type not in the allow-list, in scan order, if any. -/
def firstDisallowedModifier (objects : List SceneObject) : Option String :=
  objects.findSome?
    (fun ob => ob.modifiers.find? (fun m => !(allowed_modifiers.contains m)))

/-- The operator body `OBJECT_OT_ProcessAnimMeshes.execute(self, context)`.  Mirrors the
source order: `vertex_count` and `frame_count` are computed up front
(`len(frame_range(...))` raises `ValueError` when `frame_step` is 0), then
the modifier check, the vertex-count check and the frame-count check each
`return {'CANCELLED'}`, and only then does sampling, export-mesh creation
and baking run.  With an empty frame range, `meshes[0]` raises
`IndexError` after a no-op sampling loop. -/
def execute (scene : Scene) (selected : List SceneObject) : ExecResult :=
  let objects := selected_mesh_objects selected
  let vertex_count := (objects.map SceneObject.vertexCount).sum
  if scene.frame_step = 0 then raisedResult
  else
    let frames := frame_range scene
    let frame_count := frames.length
    match firstDisallowedModifier objects with
    | some m => cancelledResult (.disallowedModifier m)
    | none =>
      if vertex_count > 8192 then cancelledResult (.vertexLimit vertex_count)
      else if frame_count > 8192 then cancelledResult (.frameLimit frame_count)
      else if frames.isEmpty then raisedResult
      else
        { status := .FINISHED, error := none,
          framesSampled := frames,
          tempMeshesCreated := frame_count * objects.length,
          tempMeshesRemoved := frame_count * objects.length,
          perFrameMeshesCreated := frame_count,
          perFrameMeshesRemoved := 0,
          exportMeshesCreated := 1,
          exportObjectsCreated := 1,
          imagesCreated := ["offsets", "normals"],
          filesWritten := ["offsets.exr", "normals.png"] }

theorem firstDisallowedModifier_eq_none (objects : List SceneObject) :
    firstDisallowedModifier objects = none ↔
      ∀ ob ∈ objects, ∀ m ∈ ob.modifiers, m ∈ allowed_modifiers := by
  rw [firstDisallowedModifier, List.findSome?_eq_none_iff]
  constructor
  · intro h ob hob m hm
    have := h ob hob
    rw [List.find?_eq_none] at this
    have hmm := this m hm
    simpa using hmm
  · intro h ob hob
    rw [List.find?_eq_none]
    intro m hm
    simpa using h ob hob m hm

theorem firstDisallowedModifier_spec (objects : List SceneObject) (m : String)
    (h : firstDisallowedModifier objects = some m) : m ∉ allowed_modifiers := by
  obtain ⟨ob, _, hfind⟩ := List.exists_of_findSome?_eq_some h
  have := List.find?_some hfind
  simpa using this

theorem execute_step0 (scene : Scene) (selected : List SceneObject)
    (hstep : scene.frame_step = 0) :
    execute scene selected = raisedResult := by
  simp only [execute, if_pos hstep]

theorem execute_disallowed (scene : Scene) (selected : List SceneObject)
    (hstep : scene.frame_step ≠ 0) (m : String)
    (hm : firstDisallowedModifier (selected_mesh_objects selected) = some m) :
    execute scene selected = cancelledResult (.disallowedModifier m) := by
  simp only [execute, if_neg hstep, hm]

theorem execute_vertexLimit (scene : Scene) (selected : List SceneObject)
    (hstep : scene.frame_step ≠ 0)
    (hnone : firstDisallowedModifier (selected_mesh_objects selected) = none)
    (hv : ((selected_mesh_objects selected).map SceneObject.vertexCount).sum > 8192) :
    execute scene selected =
      cancelledResult
        (.vertexLimit ((selected_mesh_objects selected).map SceneObject.vertexCount).sum) := by
  simp only [execute, if_neg hstep, hnone]
  rw [if_pos hv]

theorem execute_frameLimit (scene : Scene) (selected : List SceneObject)
    (hstep : scene.frame_step ≠ 0)
    (hnone : firstDisallowedModifier (selected_mesh_objects selected) = none)
    (hv : ¬ ((selected_mesh_objects selected).map SceneObject.vertexCount).sum > 8192)
    (hf : (frame_range scene).length > 8192) :
    execute scene selected = cancelledResult (.frameLimit (frame_range scene).length) := by
  simp only [execute, if_neg hstep, hnone]
  rw [if_neg hv, if_pos hf]

theorem execute_success (scene : Scene) (selected : List SceneObject)
    (hstep : scene.frame_step ≠ 0)
    (hnone : firstDisallowedModifier (selected_mesh_objects selected) = none)
    (hv : ¬ ((selected_mesh_objects selected).map SceneObject.vertexCount).sum > 8192)
    (hf : ¬ (frame_range scene).length > 8192)
    (hne : ¬ (frame_range scene).isEmpty) :
    execute scene selected =
      { status := .FINISHED, error := none,
        framesSampled := frame_range scene,
        tempMeshesCreated :=
          (frame_range scene).length * (selected_mesh_objects selected).length,
        tempMeshesRemoved :=
          (frame_range scene).length * (selected_mesh_objects selected).length,
        perFrameMeshesCreated := (frame_range scene).length,
        perFrameMeshesRemoved := 0,
        exportMeshesCreated := 1,
        exportObjectsCreated := 1,
        imagesCreated := ["offsets", "normals"],
        filesWritten := ["offsets.exr", "normals.png"] } := by
  simp only [execute, if_neg hstep, hnone]
  rw [if_neg hv, if_neg hf, if_neg hne]

/-- Claim C5: `execute` cancels with a specific reported reason whenever a
selected mesh object carries a disallowed modifier, or the summed vertex
count of the selected mesh objects exceeds 8192, or the frame count
exceeds 8192 — and such a rejection samples no frame, creates no mesh or
object, and writes no image or file. -/
theorem execute_validation_rejects
    (scene : Scene) (selected : List SceneObject)
    (hstep : scene.frame_step ≠ 0)
    (hbad :
      (∃ ob ∈ selected_mesh_objects selected, ∃ m ∈ ob.modifiers, m ∉ allowed_modifiers)
      ∨ ((selected_mesh_objects selected).map SceneObject.vertexCount).sum > 8192
      ∨ (frame_range scene).length > 8192) :
    (execute scene selected).status = .CANCELLED ∧
    (execute scene selected).error.isSome ∧
    (execute scene selected).framesSampled = [] ∧
    (execute scene selected).tempMeshesCreated = 0 ∧
    (execute scene selected).perFrameMeshesCreated = 0 ∧
    (execute scene selected).exportMeshesCreated = 0 ∧
    (execute scene selected).exportObjectsCreated = 0 ∧
    (execute scene selected).imagesCreated = [] ∧
    (execute scene selected).filesWritten = [] := by
  have key : ∃ e, execute scene selected = cancelledResult e := by
    cases hfd : firstDisallowedModifier (selected_mesh_objects selected) with
    | some m => exact ⟨_, execute_disallowed scene selected hstep m hfd⟩
    | none =>
        rcases hbad with h | h | h
        · exfalso
          obtain ⟨ob, hob, m, hm, hnm⟩ := h
          exact hnm ((firstDisallowedModifier_eq_none _).mp hfd ob hob m hm)
        · exact ⟨_, execute_vertexLimit scene selected hstep hfd h⟩
        · by_cases hv :
            ((selected_mesh_objects selected).map SceneObject.vertexCount).sum > 8192
          · exact ⟨_, execute_vertexLimit scene selected hstep hfd hv⟩
          · exact ⟨_, execute_frameLimit scene selected hstep hfd hv h⟩
  obtain ⟨e, he⟩ := key
  rw [he]
  simp [cancelledResult]

/-- The witness scene for the operator claims: frames 1, 2, 3. -/
def exScene : Scene := ⟨1, 3, 1⟩

/-- A selected mesh object with a disallowed (boolean) modifier. -/
def exBadObj : SceneObject := ⟨"MESH", ["BOOLEAN"], 5⟩

/-- Witness for C5: a boolean modifier on a selected mesh object makes the
run cancel with no effects. -/
theorem execute_validation_rejects_witness :
    (exScene.frame_step ≠ 0) ∧
    (∃ ob ∈ selected_mesh_objects [exBadObj], ∃ m ∈ ob.modifiers,
      m ∉ allowed_modifiers) ∧
    (execute exScene [exBadObj]).status = .CANCELLED ∧
    (execute exScene [exBadObj]).error.isSome ∧
    (execute exScene [exBadObj]).framesSampled = [] ∧
    (execute exScene [exBadObj]).filesWritten = [] := by
  have hstep : exScene.frame_step ≠ 0 := by
    simp [exScene]
  have hbad : ∃ ob ∈ selected_mesh_objects [exBadObj], ∃ m ∈ ob.modifiers,
      m ∉ allowed_modifiers := by
    refine ⟨exBadObj, by simp [selected_mesh_objects, exBadObj], "BOOLEAN", by simp [exBadObj], ?_⟩
    decide
  obtain ⟨h1, h2, h3, _, _, _, _, _, h9⟩ :=
    execute_validation_rejects exScene [exBadObj] hstep (Or.inl hbad)
  exact ⟨hstep, hbad, h1, h2, h3, h9⟩

/-- Claim C10: the validation checks run in a fixed precedence order — the
disallowed-modifier check wins over both count checks, and with no
disallowed modifier but both counts over 8192 the vertex-count error is
reported. -/
theorem execute_validation_precedence
    (scene : Scene) (selected : List SceneObject)
    (hstep : scene.frame_step ≠ 0) :
    ((∃ ob ∈ selected_mesh_objects selected, ∃ m ∈ ob.modifiers,
        m ∉ allowed_modifiers) →
      ∃ mt, mt ∉ allowed_modifiers ∧
        (execute scene selected).status = .CANCELLED ∧
        (execute scene selected).error = some (.disallowedModifier mt)) ∧
    ((∀ ob ∈ selected_mesh_objects selected, ∀ m ∈ ob.modifiers,
        m ∈ allowed_modifiers) →
      ((selected_mesh_objects selected).map SceneObject.vertexCount).sum > 8192 →
      (frame_range scene).length > 8192 →
      (execute scene selected).status = .CANCELLED ∧
      (execute scene selected).error =
        some (.vertexLimit
          ((selected_mesh_objects selected).map SceneObject.vertexCount).sum)) := by
  constructor
  · intro hbad
    cases hfd : firstDisallowedModifier (selected_mesh_objects selected) with
    | none =>
        exfalso
        obtain ⟨ob, hob, m, hm, hnm⟩ := hbad
        exact hnm ((firstDisallowedModifier_eq_none _).mp hfd ob hob m hm)
    | some m =>
        refine ⟨m, firstDisallowedModifier_spec _ m hfd, ?_, ?_⟩ <;>
          rw [execute_disallowed scene selected hstep m hfd] <;> rfl
  · intro hgood hv _
    have hnone : firstDisallowedModifier (selected_mesh_objects selected) = none :=
      (firstDisallowedModifier_eq_none _).mpr hgood
    rw [execute_vertexLimit scene selected hstep hnone hv]
    exact ⟨rfl, rfl⟩

/-- A selected mesh object that both carries a disallowed modifier and has a
vertex count over the limit. -/
def exBadObjBig : SceneObject := ⟨"MESH", ["BOOLEAN"], 9000⟩

/-- A scene whose frame range has 9000 frames. -/
def exSceneBig : Scene := ⟨1, 9000, 1⟩

/-- Witness for C10: with a disallowed modifier, an over-limit vertex count
and an over-limit frame count all present at once, the modifier error is
the one reported. -/
theorem execute_validation_precedence_witness :
    (exSceneBig.frame_step ≠ 0) ∧
    (∃ ob ∈ selected_mesh_objects [exBadObjBig], ∃ m ∈ ob.modifiers,
      m ∉ allowed_modifiers) ∧
    ((selected_mesh_objects [exBadObjBig]).map SceneObject.vertexCount).sum > 8192 ∧
    (frame_range exSceneBig).length > 8192 ∧
    ∃ mt, mt ∉ allowed_modifiers ∧
      (execute exSceneBig [exBadObjBig]).status = .CANCELLED ∧
      (execute exSceneBig [exBadObjBig]).error = some (.disallowedModifier mt) := by
  have hstep : exSceneBig.frame_step ≠ 0 := by
    simp [exSceneBig]
  have hbad : ∃ ob ∈ selected_mesh_objects [exBadObjBig], ∃ m ∈ ob.modifiers,
      m ∉ allowed_modifiers := by
    refine ⟨exBadObjBig, by simp [selected_mesh_objects, exBadObjBig],
      "BOOLEAN", by simp [exBadObjBig], ?_⟩
    decide
  refine ⟨hstep, hbad, by decide, by rw [frame_range_length]; decide, ?_⟩
  exact (execute_validation_precedence exSceneBig [exBadObjBig] hstep).1 hbad

/-- A plain selected mesh object: no modifiers, one vertex. -/
def exObj : SceneObject := ⟨"MESH", [], 1⟩

/-- Counterexample to C7 as stated: a successful three-frame export leaves
all three per-frame snapshot meshes in the data store — none is removed. -/
theorem execute_snapshots_retained_counterexample :
    (execute exScene [exObj]).status = .FINISHED ∧
    (execute exScene [exObj]).perFrameMeshesCreated = 3 ∧
    (execute exScene [exObj]).perFrameMeshesRemoved = 0 ∧
    ¬ ((execute exScene [exObj]).perFrameMeshesRemoved =
        (execute exScene [exObj]).perFrameMeshesCreated) := by
  decide

/-- Claim C7 (amended): after a successful export run, the temporary
per-object evaluated meshes have all been removed, but the per-frame
snapshot meshes (one per frame) are not removed from the data store — they
are left behind, with only the frame-0 copy additionally persisting as the
export mesh. -/
theorem execute_snapshots_not_discarded
    (scene : Scene) (selected : List SceneObject)
    (hfin : (execute scene selected).status = .FINISHED) :
    (execute scene selected).perFrameMeshesCreated = (frame_range scene).length ∧
    (execute scene selected).perFrameMeshesRemoved = 0 ∧
    (execute scene selected).tempMeshesCreated =
      (execute scene selected).tempMeshesRemoved ∧
    (execute scene selected).exportMeshesCreated = 1 := by
  by_cases hstep : scene.frame_step = 0
  · rw [execute_step0 scene selected hstep] at hfin
    exact absurd hfin (by simp [raisedResult])
  cases hfd : firstDisallowedModifier (selected_mesh_objects selected) with
  | some m =>
      rw [execute_disallowed scene selected hstep m hfd] at hfin
      exact absurd hfin (by simp [cancelledResult])
  | none =>
      by_cases hv :
        ((selected_mesh_objects selected).map SceneObject.vertexCount).sum > 8192
      · rw [execute_vertexLimit scene selected hstep hfd hv] at hfin
        exact absurd hfin (by simp [cancelledResult])
      by_cases hf : (frame_range scene).length > 8192
      · rw [execute_frameLimit scene selected hstep hfd hv hf] at hfin
        exact absurd hfin (by simp [cancelledResult])
      by_cases hne : (frame_range scene).isEmpty
      · have : execute scene selected = raisedResult := by
          simp only [execute, if_neg hstep, hfd]
          rw [if_neg hv, if_neg hf, if_pos hne]
        rw [this] at hfin
        exact absurd hfin (by simp [raisedResult])
      · rw [execute_success scene selected hstep hfd hv hf hne]
        exact ⟨rfl, rfl, rfl, rfl⟩

/-- Witness for the amended C7 at the concrete three-frame scene. -/
theorem execute_snapshots_not_discarded_witness :
    (execute exScene [exObj]).status = .FINISHED ∧
    (execute exScene [exObj]).perFrameMeshesCreated = (frame_range exScene).length ∧
    (execute exScene [exObj]).perFrameMeshesRemoved = 0 ∧
    (execute exScene [exObj]).tempMeshesCreated =
      (execute exScene [exObj]).tempMeshesRemoved ∧
    (execute exScene [exObj]).exportMeshesCreated = 1 := by
  have hfin : (execute exScene [exObj]).status = .FINISHED := by decide
  obtain ⟨h1, h2, h3, h4⟩ := execute_snapshots_not_discarded exScene [exObj] hfin
  exact ⟨hfin, h1, h2, h3, h4⟩

end VextAnim
